import Mathlib

/-!
Shallow embedding of `cell_brightness_analyzer.py` (Photoluminescence Cell
Brightness Analyzer) and verification of the specification's claims about it.

Modelling conventions:
* the numpy image is a `Grid := List (List ℚ)` of sample values; floating-point
  arithmetic is modelled by exact rational arithmetic;
* numpy slicing `a[lo:hi]` (with negative-index wrap and silent clamping) is
  `npSlice`;
* Python exceptions are an explicit `AError` error type threaded through
  `Except`; numpy's behaviour on a zero-size reduction (NaN for `mean`,
  `median`, `percentile`, a raised `ValueError` for `max`) is modelled
  uniformly as the `emptyRegion` error, since ℚ has no NaN — no claim below
  depends on an empty extraction;
* the external OpenCV primitives used by automatic detection (Otsu and
  adaptive thresholding, contour extraction, `contourArea`, `boundingRect`)
  are fields of a `CV` record that theorems quantify over; the fixed manual
  cutoff `cv2.threshold(img, 127, 255, THRESH_BINARY)` is implemented
  concretely as `manualThreshold`;
* mutation of `self` / of a `Cell` is explicit state passing: each method of
  `CellBrightnessAnalyzer` returns the updated analyzer state.
-/

namespace CellBrightness

/-- A 2-D grayscale intensity grid (the loaded numpy image): rows of rational
sample values. -/
abbrev Grid := List (List ℚ)

/-- The `Cell` dataclass of the source: a rectangular cell with top-left
`(x, y)`, size `width × height`, a `brightness` defaulting to `0.0`, and an
optional string identifier. -/
structure Cell where
  x : Int
  y : Int
  width : Int
  height : Int
  brightness : ℚ := 0
  cell_id : Option String := none
deriving DecidableEq, Repr

/-- The flat record produced by `Cell.to_dict`, in the source's field order
`{cell_id, x, y, width, height, brightness}`. -/
structure CellRecord where
  cell_id : Option String
  x : Int
  y : Int
  width : Int
  height : Int
  brightness : ℚ
deriving DecidableEq, Repr

/-- `Cell.to_dict` from the source. -/
def Cell.to_dict (c : Cell) : CellRecord :=
  { cell_id := c.cell_id, x := c.x, y := c.y, width := c.width,
    height := c.height, brightness := c.brightness }

/-- Resolve one endpoint of a numpy basic slice over an axis of length `n`:
negative indices have `n` added, then the result is clamped to `[0, n]`. -/
def npSliceIdx (n : Nat) (i : Int) : Nat :=
  if i < 0 then ((n : Int) + i).toNat else min i.toNat n

/-- numpy basic slicing `l[a:b]` on one axis (half-open, silently clamped). -/
def npSlice {α : Type} (l : List α) (a b : Int) : List α :=
  (l.take (npSliceIdx l.length b)).drop (npSliceIdx l.length a)

/-- The sub-grid extraction `self.image[y:y+height, x:x+width]` performed by
`calculate_brightness`. -/
def extractRegion (img : Grid) (cell : Cell) : Grid :=
  (npSlice img cell.y (cell.y + cell.height)).map
    (fun row => npSlice row cell.x (cell.x + cell.width))

/-- Insert a value into an ascending-sorted list, keeping it sorted. -/
def insertAsc (a : ℚ) : List ℚ → List ℚ
  | [] => [a]
  | b :: l => if a ≤ b then a :: b :: l else b :: insertAsc a l

/-- Ascending sort of the sample values, as numpy's order-statistic routines
perform internally. -/
def sortAsc (l : List ℚ) : List ℚ := l.foldr insertAsc []

/-- `np.mean` over the flattened samples (`none` on a zero-size input, where
numpy would produce NaN). -/
def npMean (l : List ℚ) : Option ℚ :=
  if l.isEmpty then none else some (l.sum / (l.length : ℚ))

/-- `np.median`: middle order statistic for an odd count, the average of the
two middle order statistics for an even count (`none` on zero-size input). -/
def npMedian (l : List ℚ) : Option ℚ :=
  if l.isEmpty then none
  else
    let s := sortAsc l
    let n := s.length
    some (if n % 2 = 1 then s.getD (n / 2) 0
          else (s.getD (n / 2 - 1) 0 + s.getD (n / 2) 0) / 2)

/-- `np.max` over the flattened samples (`none` on zero-size input, where
numpy raises). -/
def npMax (l : List ℚ) : Option ℚ :=
  match l with
  | [] => none
  | a :: t => some (t.foldl max a)

/-- `np.percentile(l, p)` with numpy's default linear interpolation between
nearest ranks (`none` on zero-size input). -/
def npPercentile (l : List ℚ) (p : ℚ) : Option ℚ :=
  if l.isEmpty then none
  else
    let s := sortAsc l
    let n := s.length
    let pos : ℚ := p / 100 * ((n : ℚ) - 1)
    let i : Nat := (Int.floor pos).toNat
    let lo := s.getD i 0
    let hi := s.getD (i + 1) lo
    some (lo + (pos - (i : ℚ)) * (hi - lo))

/-- The Python exceptions the analyzer can raise, as an error type:
`invalidState` and `invalidArgument` are the source's `ValueError`s for a
missing precondition resp. an unrecognized token; `zeroDivision` is Python's
`ZeroDivisionError`; `emptyRegion` stands for numpy's behaviour on a zero-size
reduction (see the module docstring). -/
inductive AError where
  | invalidState : String → AError
  | invalidArgument : String → AError
  | zeroDivision : AError
  | emptyRegion : AError
deriving DecidableEq, Repr

/-- An OpenCV contour: a sequence of integer points. -/
abbrev Contour := List (Int × Int)

/-- The external OpenCV primitives used by `detect_cells_automatically`,
abstracted as a record of functions that theorems quantify over. -/
structure CV where
  otsuThreshold : Grid → Grid
  adaptiveThreshold : Grid → Grid
  findContours : Grid → List Contour
  contourArea : Contour → ℚ
  boundingRect : Contour → Int × Int × Int × Int

/-- The analyzer's mutable state: the loaded image, the cell list and the
result list (all initially empty, as in `__init__`). -/
structure CellBrightnessAnalyzer where
  image : Option Grid := none
  cells : List Cell := []
  results : List CellRecord := []
deriving DecidableEq, Repr

/-- The fixed manual cutoff `cv2.threshold(img, 127, 255, THRESH_BINARY)`:
a sample becomes 255 when strictly above 127, otherwise 0. -/
def manualThreshold (img : Grid) : Grid :=
  img.map (fun row => row.map (fun v => if 127 < v then 255 else 0))

/-- The threshold dispatch of `detect_cells_automatically`: `"otsu"` and
`"adaptive"` go to the corresponding OpenCV call, every other token falls
through to the manual cutoff. -/
def thresholdImage (cv : CV) (threshold_method : String) (img : Grid) : Grid :=
  if threshold_method = "otsu" then cv.otsuThreshold img
  else if threshold_method = "adaptive" then cv.adaptiveThreshold img
  else manualThreshold img

/-- The contour-filtering loop of `detect_cells_automatically`: enumerate all
contours, keep those of area at least `min_area`, and build a `Cell` from the
bounding rectangle with identifier indexed by the pre-filter position. -/
def contourCells (cv : CV) (contours : List Contour) (min_area : Int) : List Cell :=
  contours.enum.foldl
    (fun cells ic =>
      let area := cv.contourArea ic.2
      if (min_area : ℚ) ≤ area then
        let r := cv.boundingRect ic.2
        cells ++ [{ x := r.1, y := r.2.1, width := r.2.2.1, height := r.2.2.2,
                    cell_id := some ("cell_" ++ toString (ic.1 + 1)) }]
      else cells)
    []

/-- `detect_cells_automatically(min_area, threshold_method)`. -/
def detect_cells_automatically (cv : CV) (a : CellBrightnessAnalyzer)
    (min_area : Int) (threshold_method : String) :
    Except AError (CellBrightnessAnalyzer × List Cell) :=
  match a.image with
  | none => .error (.invalidState "No image loaded. Call load_image() first.")
  | some img =>
      let binary := thresholdImage cv threshold_method img
      let contours := cv.findContours binary
      let cells := contourCells cv contours min_area
      .ok ({ a with cells := cells }, cells)

/-- `add_cell_manual(x, y, width, height, cell_id)`. -/
def add_cell_manual (a : CellBrightnessAnalyzer) (x y width height : Int)
    (cell_id : Option String) : CellBrightnessAnalyzer × Cell :=
  let cid := match cell_id with
    | none => "cell_" ++ toString (a.cells.length + 1)
    | some s => s
  let cell : Cell := { x := x, y := y, width := width, height := height,
                       cell_id := some cid }
  ({ a with cells := a.cells ++ [cell] }, cell)

/-- `self.image.shape` of the 2-D array: `(rows, columns)`. -/
def imageShape (img : Grid) : Int × Int :=
  ((img.length : Int), ((img.headD []).length : Int))

/-- The per-axis cell size of `add_cells_grid`: the interior space
floor-divided (Python `//`) by the count. -/
def gridCellSize (dim count margin spacing : Int) : Int :=
  Int.fdiv (dim - 2 * margin - (count - 1) * spacing) count

/-- The cell placed at grid position `(row, col)` by `add_cells_grid`: offset
`margin + index * (cell_size + spacing)` along each axis, 1-based identifier
`cell_r{row+1}_c{col+1}`. -/
def gridCell (cw ch margin spacing : Int) (row col : Nat) : Cell :=
  { x := margin + (col : Int) * (cw + spacing),
    y := margin + (row : Int) * (ch + spacing),
    width := cw, height := ch,
    cell_id := some ("cell_r" ++ toString (row + 1) ++
                     "_c" ++ toString (col + 1)) }

/-- The row-major list of cells built by the nested loops of
`add_cells_grid`. -/
def gridCells (img : Grid) (rows cols margin spacing : Int) : List Cell :=
  let cw := gridCellSize (imageShape img).2 cols margin spacing
  let ch := gridCellSize (imageShape img).1 rows margin spacing
  (List.range rows.toNat).flatMap (fun row =>
    (List.range cols.toNat).map (fun col => gridCell cw ch margin spacing row col))

/-- `add_cells_grid(rows, cols, margin, spacing)`. A zero `rows` or `cols`
makes the Python floor division raise `ZeroDivisionError`. -/
def add_cells_grid (a : CellBrightnessAnalyzer) (rows cols margin spacing : Int) :
    Except AError (CellBrightnessAnalyzer × List Cell) :=
  match a.image with
  | none => .error (.invalidState "No image loaded. Call load_image() first.")
  | some img =>
      if cols = 0 ∨ rows = 0 then .error .zeroDivision
      else
        let cells := gridCells img rows cols margin spacing
        .ok ({ a with cells := a.cells ++ cells }, cells)

/-- Lift the result of a numpy reduction into the error monad. -/
def reduceResult (o : Option ℚ) : Except AError ℚ :=
  match o with
  | some b => .ok b
  | none => .error .emptyRegion

/-- The method dispatch of `calculate_brightness` over the flattened sample
values: the four recognized tokens run the corresponding numpy reduction, any
other token raises `ValueError("Unknown method: ...")`. -/
def dispatchMethod (samples : List ℚ) (method : String) : Except AError ℚ :=
  if method = "mean" then reduceResult (npMean samples)
  else if method = "median" then reduceResult (npMedian samples)
  else if method = "max" then reduceResult (npMax samples)
  else if method = "percentile" then reduceResult (npPercentile samples 95)
  else .error (.invalidArgument ("Unknown method: " ++ method))

/-- The body of `calculate_brightness` once the image is known to be loaded:
extract the sub-grid, reduce it, store the value into the cell's `brightness`
field and return both. -/
def calcBrightnessImg (img : Grid) (cell : Cell) (method : String) :
    Except AError (ℚ × Cell) :=
  match dispatchMethod ((extractRegion img cell).flatten) method with
  | .error e => .error e
  | .ok b => .ok (b, { cell with brightness := b })

/-- `calculate_brightness(cell, method)`: extract the sub-grid, dispatch on
the method token (raising on an unknown one), store the value in the cell's
`brightness` field and return it. -/
def calculate_brightness (a : CellBrightnessAnalyzer) (cell : Cell)
    (method : String) : Except AError (ℚ × Cell) :=
  match a.image with
  | none => .error (.invalidState "No image loaded. Call load_image() first.")
  | some img => calcBrightnessImg img cell method

/-- The loop body of `analyze_all_cells`: reduce each cell in order, collect
the updated cells and the records of their `to_dict` snapshots. -/
def analyzeCells (a : CellBrightnessAnalyzer) (method : String) :
    List Cell → Except AError (List Cell × List CellRecord)
  | [] => .ok ([], [])
  | c :: cs =>
      match calculate_brightness a c method with
      | .error e => .error e
      | .ok bc =>
          match analyzeCells a method cs with
          | .error e => .error e
          | .ok p => .ok (bc.2 :: p.1, bc.2.to_dict :: p.2)

/-- `analyze_all_cells(method)`: requires a non-empty cell list, reduces every
cell in order and replaces `self.results` with the fresh records. -/
def analyze_all_cells (a : CellBrightnessAnalyzer) (method : String) :
    Except AError (CellBrightnessAnalyzer × List CellRecord) :=
  if a.cells.isEmpty then .error (.invalidState "No cells defined. Add cells first.")
  else
    match analyzeCells a method a.cells with
    | .error e => .error e
    | .ok p => .ok ({ a with cells := p.1, results := p.2 }, p.2)

/-- Well-formedness of a grid: `R` rows, every row of length `C`. -/
def GridWF (g : Grid) (R C : Nat) : Prop :=
  g.length = R ∧ ∀ row ∈ g, row.length = C

instance (g : Grid) (R C : Nat) : Decidable (GridWF g R C) := by
  unfold GridWF; infer_instance

/-- The `brightness` value a freshly created `Cell` carries before any
reduction has run on it (the dataclass default `0.0`). -/
def uncomputedBrightness : ℚ := 0

/-- Two cells (as axis-aligned rectangles, half-open) share at least one
point. -/
def cellsOverlap (c1 c2 : Cell) : Prop :=
  c1.x < c2.x + c2.width ∧ c2.x < c1.x + c1.width ∧
  c1.y < c2.y + c2.height ∧ c2.y < c1.y + c1.height

instance (c1 c2 : Cell) : Decidable (cellsOverlap c1 c2) := by
  unfold cellsOverlap; infer_instance

/-- Modelled from the spec: the intersection of a cell's rectangle with the
grid extent — rows `y` to `min (y+height) rows` and columns `x` to
`min (x+width) columns`, half-open. Written from the spec's words to be
compared against `extractRegion`. -/
def intersectRegion (img : Grid) (cell : Cell) : Grid :=
  ((img.take (min (cell.y + cell.height) (img.length : Int)).toNat).drop
      cell.y.toNat).map
    (fun row => (row.take (min (cell.x + cell.width) (row.length : Int)).toNat).drop
      cell.x.toNat)

/-- A default cell used with `List.getD` in index-wise statements. -/
def cell0 : Cell := { x := 0, y := 0, width := 0, height := 0 }

/-- A default record used with `List.getD` in index-wise statements. -/
def record0 : CellRecord := cell0.to_dict

instance {ε α : Type} [DecidableEq ε] [DecidableEq α] :
    DecidableEq (Except ε α) := fun x y =>
  match x, y with
  | .error e, .error f =>
      if h : e = f then isTrue (by rw [h])
      else isFalse (fun hc => h (Except.error.inj hc))
  | .ok a, .ok b =>
      if h : a = b then isTrue (by rw [h])
      else isFalse (fun hc => h (Except.ok.inj hc))
  | .error _, .ok _ => isFalse (fun hc => Except.noConfusion hc)
  | .ok _, .error _ => isFalse (fun hc => Except.noConfusion hc)

/-- A small concrete 2×4 grid used to instantiate theorems. -/
def sampleGrid : Grid := [[1, 2, 3, 4], [5, 6, 7, 8]]

/-- An analyzer session holding `sampleGrid`. -/
def sampleAnalyzer : CellBrightnessAnalyzer := { image := some sampleGrid }

/-- A 2×2 cell at `(1, 0)` inside `sampleGrid`. -/
def sampleCell : Cell := { x := 1, y := 0, width := 2, height := 2 }

/-- A concrete 10×10 all-zero grid. -/
def grid10 : Grid := List.replicate 10 (List.replicate 10 (0 : ℚ))

/-- An analyzer session holding `grid10`. -/
def analyzer10 : CellBrightnessAnalyzer := { image := some grid10 }

/-- A left-skewed 1×3 grid whose mean is below its median. -/
def skewGrid : Grid := [[0, 10, 10]]

/-- An analyzer session holding `skewGrid`. -/
def skewAnalyzer : CellBrightnessAnalyzer := { image := some skewGrid }

/-- The full-grid 3×1 cell over `skewGrid`. -/
def skewCell : Cell := { x := 0, y := 0, width := 3, height := 1 }

/-- A concrete instantiation of the OpenCV primitives, used to evaluate
theorems about automatic detection on explicit inputs. -/
def cv0 : CV :=
  { otsuThreshold := fun g => g,
    adaptiveThreshold := fun g => g,
    findContours := fun _ => [[(0, 0)], [(0, 1)]],
    contourArea := fun c => (c.length : ℚ),
    boundingRect := fun _ => (0, 0, 1, 1) }

/-- The degenerate cell produced by `add_cells_grid(1, 1, margin=6)` on a
10×10 grid (width and height are negative). -/
def degCell : Cell :=
  { x := 6, y := 6, width := -2, height := -2, cell_id := some "cell_r1_c1" }

/-- A session with a loaded grid, one cell and a stale prior result. -/
def awc : CellBrightnessAnalyzer :=
  { image := some sampleGrid, cells := [sampleCell], results := [record0] }

/-- The cell of `awc` after a `mean` reduction (mean of `[2,3,6,7]` is
`9/2`). -/
def awcCell : Cell := { x := 1, y := 0, width := 2, height := 2, brightness := 9 / 2 }

/-- The single record produced by analyzing `awc` with `mean`. -/
def awcRec : CellRecord :=
  { cell_id := none, x := 1, y := 0, width := 2, height := 2, brightness := 9 / 2 }

/-- A cell starting inside `sampleGrid` but running past its right edge. -/
def oobCell : Cell := { x := 2, y := 1, width := 5, height := 3 }

/-- The four cells produced by `add_cells_grid(2, 2)` on `grid10`. -/
def gridCellsA : List Cell :=
  [{ x := 0, y := 0, width := 5, height := 5, cell_id := some "cell_r1_c1" },
   { x := 5, y := 0, width := 5, height := 5, cell_id := some "cell_r1_c2" },
   { x := 0, y := 5, width := 5, height := 5, cell_id := some "cell_r2_c1" },
   { x := 5, y := 5, width := 5, height := 5, cell_id := some "cell_r2_c2" }]

section SortLemmas

theorem insertAsc_perm (a : ℚ) (l : List ℚ) : (insertAsc a l).Perm (a :: l) := by
  induction l with
  | nil => exact List.Perm.refl _
  | cons b t ih =>
      by_cases hab : a ≤ b
      · simp [insertAsc, hab]
      · simp only [insertAsc, hab, if_false]
        exact ((ih.cons b).trans (List.Perm.swap a b t))

theorem sortAsc_perm (l : List ℚ) : (sortAsc l).Perm l := by
  induction l with
  | nil => exact List.Perm.refl _
  | cons a t ih => exact (insertAsc_perm a (sortAsc t)).trans (ih.cons a)

theorem mem_of_mem_sortAsc {x : ℚ} {l : List ℚ} (h : x ∈ sortAsc l) : x ∈ l :=
  (sortAsc_perm l).mem_iff.mp h

theorem length_sortAsc (l : List ℚ) : (sortAsc l).length = l.length :=
  (sortAsc_perm l).length_eq

end SortLemmas

section ReduceLemmas

theorem le_foldl_max (l : List ℚ) (a : ℚ) : a ≤ l.foldl max a := by
  induction l generalizing a with
  | nil => exact le_refl a
  | cons b t ih => exact le_trans (le_max_left a b) (ih (max a b))

theorem mem_le_foldl_max {x : ℚ} {l : List ℚ} (a : ℚ) (hx : x ∈ l) :
    x ≤ l.foldl max a := by
  induction l generalizing a with
  | nil => cases hx
  | cons b t ih =>
      rcases List.mem_cons.mp hx with h | h
      · subst h
        exact le_trans (le_max_right a x) (le_foldl_max t (max a x))
      · exact ih (max a b) h

theorem npMax_is_ub {l : List ℚ} {M : ℚ} (h : npMax l = some M) :
    ∀ x ∈ l, x ≤ M := by
  cases l with
  | nil => simp [npMax] at h
  | cons a t =>
      simp only [npMax, Option.some.injEq] at h
      subst h
      intro x hx
      rcases List.mem_cons.mp hx with h | h
      · subst h; exact le_foldl_max t x
      · exact mem_le_foldl_max a h

theorem npMean_le_of_ub {l : List ℚ} {M m : ℚ} (hne : l ≠ [])
    (hub : ∀ x ∈ l, x ≤ M) (h : npMean l = some m) : m ≤ M := by
  simp only [npMean, List.isEmpty_eq_true, hne, if_false, Option.some.injEq] at h
  subst h
  have hsum : l.sum ≤ (l.length : ℚ) * M := by
    have := List.sum_le_card_nsmul l M hub
    simpa [nsmul_eq_mul] using this
  have hlen : (0 : ℚ) < (l.length : ℚ) := by
    have : 0 < l.length := List.length_pos.mpr hne
    exact_mod_cast this
  rw [div_le_iff₀ hlen]
  linarith [hsum]

theorem npMedian_le_of_ub {l : List ℚ} {M m : ℚ} (hne : l ≠ [])
    (hub : ∀ x ∈ l, x ≤ M) (h : npMedian l = some m) : m ≤ M := by
  simp only [npMedian, List.isEmpty_eq_true, hne, if_false, Option.some.injEq] at h
  have hlen : (sortAsc l).length = l.length := length_sortAsc l
  have hpos : 0 < (sortAsc l).length := by
    rw [hlen]; exact List.length_pos.mpr hne
  have hub' : ∀ x ∈ sortAsc l, x ≤ M := fun x hx => hub x (mem_of_mem_sortAsc hx)
  have hget : ∀ k, k < (sortAsc l).length → (sortAsc l).getD k 0 ≤ M := by
    intro k hk
    rw [List.getD_eq_getElem (sortAsc l) 0 hk]
    exact hub' _ (List.getElem_mem hk)
  by_cases hodd : (sortAsc l).length % 2 = 1
  · rw [if_pos hodd] at h
    subst h
    exact hget _ (Nat.div_lt_self hpos (by norm_num))
  · rw [if_neg hodd] at h
    subst h
    have h1 : (sortAsc l).length / 2 < (sortAsc l).length :=
      Nat.div_lt_self hpos (by norm_num)
    have h2 : (sortAsc l).length / 2 - 1 < (sortAsc l).length :=
      lt_of_le_of_lt (Nat.sub_le _ _) h1
    have := hget _ h1
    have := hget _ h2
    linarith

theorem npMean_some {l : List ℚ} (h : l.isEmpty = false) :
    npMean l = some (l.sum / (l.length : ℚ)) := by
  unfold npMean
  simp [h]

theorem npMedian_some {l : List ℚ} (h : l.isEmpty = false) :
    ∃ m, npMedian l = some m := by
  refine ⟨?_, ?_⟩
  · exact (if (sortAsc l).length % 2 = 1 then (sortAsc l).getD ((sortAsc l).length / 2) 0
      else ((sortAsc l).getD ((sortAsc l).length / 2 - 1) 0 +
            (sortAsc l).getD ((sortAsc l).length / 2) 0) / 2)
  · unfold npMedian
    simp [h]

end ReduceLemmas

section ContourLemmas

/-- The `Cell` built from the contour at pre-filter index `i`. -/
def contourCell (cv : CV) (i : Nat) (c : Contour) : Cell :=
  { x := (cv.boundingRect c).1, y := (cv.boundingRect c).2.1,
    width := (cv.boundingRect c).2.2.1, height := (cv.boundingRect c).2.2.2,
    cell_id := some ("cell_" ++ toString (i + 1)) }

theorem contourCells_aux (cv : CV) (min_area : Int) :
    ∀ (l : List (Nat × Contour)) (acc : List Cell),
      l.foldl
        (fun cells ic =>
          let area := cv.contourArea ic.2
          if (min_area : ℚ) ≤ area then
            let r := cv.boundingRect ic.2
            cells ++ [{ x := r.1, y := r.2.1, width := r.2.2.1, height := r.2.2.2,
                        cell_id := some ("cell_" ++ toString (ic.1 + 1)) }]
          else cells) acc =
      acc ++ (l.filter
          (fun ic => decide ((min_area : ℚ) ≤ cv.contourArea ic.2))).map
        (fun ic => contourCell cv ic.1 ic.2) := by
  intro l
  induction l with
  | nil => intro acc; simp
  | cons a t ih =>
      intro acc
      by_cases hp : (min_area : ℚ) ≤ cv.contourArea a.2
      · simp [List.foldl_cons, List.filter_cons, hp, ih, contourCell]
      · simp [List.foldl_cons, List.filter_cons, hp, ih]

theorem contourCells_eq (cv : CV) (contours : List Contour) (min_area : Int) :
    contourCells cv contours min_area =
      ((contours.enum.filter
          (fun ic => decide ((min_area : ℚ) ≤ cv.contourArea ic.2))).map
        (fun ic => contourCell cv ic.1 ic.2)) := by
  unfold contourCells
  exact contourCells_aux cv min_area contours.enum []

theorem contourCells_brightness (cv : CV) (contours : List Contour)
    (min_area : Int) :
    ∀ c ∈ contourCells cv contours min_area, c.brightness = 0 := by
  intro c hc
  rw [contourCells_eq] at hc
  rcases List.mem_map.mp hc with ⟨ic, _, rfl⟩
  rfl

end ContourLemmas

section BrightnessLemmas

theorem dispatchMethod_mean (samples : List ℚ) :
    dispatchMethod samples "mean" = reduceResult (npMean samples) := by
  unfold dispatchMethod
  rw [if_pos rfl]

theorem dispatchMethod_median (samples : List ℚ) :
    dispatchMethod samples "median" = reduceResult (npMedian samples) := by
  unfold dispatchMethod
  rw [if_neg (by decide), if_pos rfl]

theorem dispatchMethod_max (samples : List ℚ) :
    dispatchMethod samples "max" = reduceResult (npMax samples) := by
  unfold dispatchMethod
  rw [if_neg (by decide), if_neg (by decide), if_pos rfl]

theorem dispatchMethod_percentile (samples : List ℚ) :
    dispatchMethod samples "percentile" = reduceResult (npPercentile samples 95) := by
  unfold dispatchMethod
  rw [if_neg (by decide), if_neg (by decide), if_neg (by decide), if_pos rfl]

theorem calcBrightnessImg_of_dispatch {img : Grid} {cell : Cell}
    {method : String} {b : ℚ}
    (h : dispatchMethod ((extractRegion img cell).flatten) method = .ok b) :
    calcBrightnessImg img cell method = .ok (b, { cell with brightness := b }) := by
  unfold calcBrightnessImg
  rw [h]

theorem calculate_brightness_some {a : CellBrightnessAnalyzer} {cell : Cell}
    {method : String} {g : Grid} (himg : a.image = some g) :
    calculate_brightness a cell method = calcBrightnessImg g cell method := by
  unfold calculate_brightness
  rw [himg]

theorem calcBrightnessImg_ok_shape {img : Grid} {cell : Cell}
    {method : String} {b : ℚ} {c' : Cell}
    (h : calcBrightnessImg img cell method = .ok (b, c')) :
    c' = { cell with brightness := b } := by
  unfold calcBrightnessImg at h
  split at h
  · exact absurd h (by simp)
  · simp only [Except.ok.injEq, Prod.mk.injEq] at h
    obtain ⟨hb, hc⟩ := h
    rw [← hc, hb]

theorem calculate_brightness_ok_shape {a : CellBrightnessAnalyzer} {cell : Cell}
    {method : String} {b : ℚ} {c' : Cell}
    (h : calculate_brightness a cell method = .ok (b, c')) :
    c' = { cell with brightness := b } := by
  unfold calculate_brightness at h
  split at h
  · exact absurd h (by simp)
  · exact calcBrightnessImg_ok_shape h

theorem calculate_brightness_unknown {a : CellBrightnessAnalyzer} {cell : Cell}
    {method : String} {g : Grid} (himg : a.image = some g)
    (h1 : method ≠ "mean") (h2 : method ≠ "median") (h3 : method ≠ "max")
    (h4 : method ≠ "percentile") :
    calculate_brightness a cell method =
      .error (.invalidArgument ("Unknown method: " ++ method)) := by
  rw [calculate_brightness_some himg]
  unfold calcBrightnessImg dispatchMethod
  simp [h1, h2, h3, h4]

theorem dispatchMethod_ok_of_nonempty {samples : List ℚ} {method : String}
    (hm : method = "mean" ∨ method = "median" ∨ method = "max" ∨
          method = "percentile")
    (hs : samples ≠ []) :
    ∃ b, dispatchMethod samples method = .ok b := by
  have hs' : samples.isEmpty = false := by
    simpa [List.isEmpty_eq_true] using hs
  unfold dispatchMethod
  rcases hm with h | h | h | h
  · subst h
    refine ⟨samples.sum / (samples.length : ℚ), ?_⟩
    simp [npMean, hs', reduceResult]
  · subst h
    refine ⟨?_, ?_⟩
    · exact (if (sortAsc samples).length % 2 = 1 then
        (sortAsc samples).getD ((sortAsc samples).length / 2) 0
      else ((sortAsc samples).getD ((sortAsc samples).length / 2 - 1) 0 +
            (sortAsc samples).getD ((sortAsc samples).length / 2) 0) / 2)
    · simp [npMedian, hs', reduceResult]
  · subst h
    cases hflat : samples with
    | nil => exact absurd hflat hs
    | cons v t =>
        refine ⟨t.foldl max v, ?_⟩
        simp [npMax, reduceResult]
  · subst h
    refine ⟨?_, ?_⟩
    · exact ((sortAsc samples).getD
          ((Int.floor ((95 : ℚ) / 100 * (((sortAsc samples).length : ℚ) - 1))).toNat) 0 +
        ((95 : ℚ) / 100 * (((sortAsc samples).length : ℚ) - 1) -
          (((Int.floor ((95 : ℚ) / 100 * (((sortAsc samples).length : ℚ) - 1))).toNat : ℚ))) *
        ((sortAsc samples).getD
            ((Int.floor ((95 : ℚ) / 100 * (((sortAsc samples).length : ℚ) - 1))).toNat + 1)
            ((sortAsc samples).getD
              ((Int.floor ((95 : ℚ) / 100 * (((sortAsc samples).length : ℚ) - 1))).toNat) 0) -
          (sortAsc samples).getD
            ((Int.floor ((95 : ℚ) / 100 * (((sortAsc samples).length : ℚ) - 1))).toNat) 0))
    · simp [npPercentile, hs', reduceResult]

theorem calculate_brightness_ok_of_nonempty {a : CellBrightnessAnalyzer}
    {cell : Cell} {method : String} {g : Grid} (himg : a.image = some g)
    (hm : method = "mean" ∨ method = "median" ∨ method = "max" ∨
          method = "percentile")
    (hs : (extractRegion g cell).flatten ≠ []) :
    ∃ b, calculate_brightness a cell method =
      .ok (b, { cell with brightness := b }) := by
  obtain ⟨b, hb⟩ :=
    @dispatchMethod_ok_of_nonempty ((extractRegion g cell).flatten) method hm hs
  refine ⟨b, ?_⟩
  rw [calculate_brightness_some himg]
  unfold calcBrightnessImg
  rw [hb]

end BrightnessLemmas

section SliceLemmas

theorem npSlice_subset {α : Type} (l : List α) (a b : Int) :
    ∀ x ∈ npSlice l a b, x ∈ l := by
  intro x hx
  exact List.take_subset _ _ (List.drop_subset _ _ hx)

theorem length_npSlice {α : Type} (l : List α) (a b : Int)
    (ha : 0 ≤ a) (hab : a ≤ b) (hb : b ≤ (l.length : Int)) :
    (npSlice l a b).length = (b - a).toNat := by
  unfold npSlice npSliceIdx
  rw [if_neg (not_lt.mpr (le_trans ha hab)), if_neg (not_lt.mpr ha)]
  rw [List.length_drop, List.length_take]
  omega

theorem npSlice_eq_clip {α : Type} (l : List α) (a b : Int)
    (ha : 0 ≤ a) (hb : 0 ≤ b) :
    npSlice l a b = (l.take (min b (l.length : Int)).toNat).drop a.toNat := by
  unfold npSlice npSliceIdx
  rw [if_neg (not_lt.mpr hb), if_neg (not_lt.mpr ha)]
  have htake : min b.toNat l.length = (min b (l.length : Int)).toNat := by omega
  rw [htake]
  by_cases hc : a.toNat ≤ l.length
  · rw [min_eq_left hc]
  · have h1 : min a.toNat l.length = l.length := by omega
    rw [h1]
    have hlen : (l.take (min b (l.length : Int)).toNat).length ≤ l.length := by
      rw [List.length_take]; omega
    rw [List.drop_eq_nil_of_le (by omega), List.drop_eq_nil_of_le (by omega)]

theorem extractRegion_shape {g : Grid} {R C : Nat} {cell : Cell}
    (hwf : GridWF g R C) (hx : 0 ≤ cell.x) (hy : 0 ≤ cell.y)
    (hxw : cell.x + cell.width ≤ (C : Int))
    (hyh : cell.y + cell.height ≤ (R : Int))
    (hw : 0 ≤ cell.width) (hh : 0 ≤ cell.height) :
    (extractRegion g cell).length = cell.height.toNat ∧
    ∀ row ∈ extractRegion g cell, row.length = cell.width.toNat := by
  obtain ⟨hR, hC⟩ := hwf
  constructor
  · unfold extractRegion
    rw [List.length_map]
    rw [length_npSlice g cell.y (cell.y + cell.height) hy (by linarith)
      (by rw [hR]; exact hyh)]
    omega
  · intro row hrow
    unfold extractRegion at hrow
    rcases List.mem_map.mp hrow with ⟨row', hmem, rfl⟩
    have hrow' : row' ∈ g := npSlice_subset _ _ _ _ hmem
    have hlen : row'.length = C := hC row' hrow'
    rw [length_npSlice row' cell.x (cell.x + cell.width) hx (by linarith)
      (by rw [hlen]; exact hxw)]
    omega

theorem extractRegion_flatten_subset {g : Grid} {cell : Cell} :
    ∀ v ∈ (extractRegion g cell).flatten, ∃ row ∈ g, v ∈ row := by
  intro v hv
  rcases List.mem_flatten.mp hv with ⟨r, hr, hvr⟩
  unfold extractRegion at hr
  rcases List.mem_map.mp hr with ⟨row', hmem, rfl⟩
  exact ⟨row', npSlice_subset _ _ _ _ hmem, npSlice_subset _ _ _ _ hvr⟩

theorem extractRegion_flatten_ne_nil {g : Grid} {R C : Nat} {cell : Cell}
    (hwf : GridWF g R C) (hx : 0 ≤ cell.x) (hy : 0 ≤ cell.y)
    (hw : 0 < cell.width) (hh : 0 < cell.height)
    (hxw : cell.x + cell.width ≤ (C : Int))
    (hyh : cell.y + cell.height ≤ (R : Int)) :
    (extractRegion g cell).flatten ≠ [] := by
  obtain ⟨hlen, hrows⟩ :=
    extractRegion_shape hwf hx hy hxw hyh (le_of_lt hw) (le_of_lt hh)
  intro hcontra
  rw [List.flatten_eq_nil_iff] at hcontra
  have hpos : 0 < (extractRegion g cell).length := by omega
  obtain ⟨r, hr⟩ := List.exists_mem_of_length_pos hpos
  have h1 := hrows r hr
  have h2 := hcontra r hr
  rw [h2] at h1
  simp at h1
  omega

theorem npSlice_ne_nil {α : Type} (l : List α) (a b : Int) (ha : 0 ≤ a)
    (hal : a < (l.length : Int)) (hab : a < b) :
    npSlice l a b ≠ [] := by
  unfold npSlice npSliceIdx
  rw [if_neg (not_lt.mpr (le_trans ha (le_of_lt hab))), if_neg (not_lt.mpr ha)]
  intro hcontra
  have hlen := congrArg List.length hcontra
  rw [List.length_drop, List.length_take] at hlen
  simp only [List.length_nil] at hlen
  omega

theorem extractRegion_flatten_ne_nil_start_inside {g : Grid} {R C : Nat}
    {cell : Cell} (hwf : GridWF g R C) (hx : 0 ≤ cell.x) (hy : 0 ≤ cell.y)
    (hw : 0 < cell.width) (hh : 0 < cell.height)
    (hxC : cell.x < (C : Int)) (hyR : cell.y < (R : Int)) :
    (extractRegion g cell).flatten ≠ [] := by
  intro hcontra
  rw [List.flatten_eq_nil_iff] at hcontra
  have hrows : npSlice g cell.y (cell.y + cell.height) ≠ [] :=
    npSlice_ne_nil g _ _ hy (by rw [hwf.1]; exact hyR) (by linarith)
  obtain ⟨row', hrow'⟩ :=
    List.exists_mem_of_length_pos (List.length_pos.mpr hrows)
  have hmem : npSlice row' cell.x (cell.x + cell.width) ∈ extractRegion g cell :=
    List.mem_map_of_mem _ hrow'
  have hempty := hcontra _ hmem
  have hrowlen : row'.length = C := hwf.2 row' (npSlice_subset _ _ _ _ hrow')
  exact npSlice_ne_nil row' _ _ hx (by rw [hrowlen]; exact hxC)
    (by linarith) hempty

theorem extractRegion_eq_intersectRegion {g : Grid} {cell : Cell}
    (hx : 0 ≤ cell.x) (hy : 0 ≤ cell.y)
    (hw : 0 ≤ cell.width) (hh : 0 ≤ cell.height) :
    extractRegion g cell = intersectRegion g cell := by
  unfold extractRegion intersectRegion
  rw [npSlice_eq_clip g cell.y (cell.y + cell.height) hy (by linarith)]
  apply List.map_congr_left
  intro row hrow
  exact npSlice_eq_clip row cell.x (cell.x + cell.width) hx (by linarith)

end SliceLemmas

section GridPartitionLemmas

theorem length_flatMap_const {α : Type} (m n : Nat) (f : Nat → List α)
    (hf : ∀ i, (f i).length = n) :
    ((List.range m).flatMap f).length = m * n := by
  induction m with
  | zero => simp
  | succ k ih =>
      rw [List.range_succ, List.flatMap_append, List.length_append, ih]
      simp [hf]
      ring

theorem getD_flatMap_range {α : Type} {m n : Nat} (f : Nat → List α)
    (hf : ∀ i, (f i).length = n) (d : α) :
    ∀ r c, r < m → c < n →
      ((List.range m).flatMap f).getD (r * n + c) d = (f r).getD c d := by
  induction m with
  | zero => intro r c hr _; omega
  | succ k ih =>
      intro r c hr hc
      rw [List.range_succ, List.flatMap_append]
      have hlen : ((List.range k).flatMap f).length = k * n :=
        length_flatMap_const k n f hf
      by_cases hrk : r < k
      · rw [List.getD_append]
        · exact ih r c hrk hc
        · rw [hlen]
          have h1 : (r + 1) * n ≤ k * n := Nat.mul_le_mul_right n hrk
          have h2 : r * n + c < (r + 1) * n := by rw [Nat.succ_mul]; omega
          omega
      · have hrk' : r = k := by omega
        subst hrk'
        rw [List.getD_append_right _ _ _ _ (by rw [hlen]; exact Nat.le_add_right _ _)]
        rw [hlen]
        simp

theorem gridCellSize_pos {dim count margin spacing : Int} (hcount : 0 < count)
    (hfit : 2 * margin + (count - 1) * spacing + count ≤ dim) :
    0 < gridCellSize dim count margin spacing := by
  unfold gridCellSize
  rw [Int.fdiv_eq_ediv _ (le_of_lt hcount)]
  have h1 : 1 * count ≤ dim - 2 * margin - (count - 1) * spacing := by linarith
  have h2 := (Int.le_ediv_iff_mul_le hcount).mpr h1
  linarith

theorem imageShape_eq {g : Grid} {R C : Nat} (hwf : GridWF g R C) (hR : 0 < R) :
    imageShape g = ((R : Int), (C : Int)) := by
  obtain ⟨hlen, hrows⟩ := hwf
  unfold imageShape
  cases g with
  | nil => simp at hlen; omega
  | cons r t =>
      have h1 := hrows r (List.mem_cons_self r t)
      simp only [List.headD_cons, Prod.mk.injEq]
      constructor
      · exact_mod_cast hlen
      · exact_mod_cast h1

theorem gridAxis_separated {w s : Int} (hw : 0 < w) (hs : 0 ≤ s)
    {u v : Nat} (huv : u < v) (m : Int) :
    m + (u : Int) * (w + s) + w ≤ m + (v : Int) * (w + s) := by
  have h1 : ((u : Int) + 1) ≤ (v : Int) := by exact_mod_cast huv
  have h2 : ((u : Int) + 1) * (w + s) ≤ (v : Int) * (w + s) :=
    mul_le_mul_of_nonneg_right h1 (by linarith)
  have h3 : ((u : Int) + 1) * (w + s) = (u : Int) * (w + s) + (w + s) := by ring
  linarith

theorem gridCell_not_overlap {cw ch margin spacing : Int}
    (hcw : 0 < cw) (hch : 0 < ch) (hs : 0 ≤ spacing)
    {r1 c1 r2 c2 : Nat} (hne : ¬(r1 = r2 ∧ c1 = c2)) :
    ¬ cellsOverlap (gridCell cw ch margin spacing r1 c1)
        (gridCell cw ch margin spacing r2 c2) := by
  intro hov
  obtain ⟨h1, h2, h3, h4⟩ := hov
  simp only [gridCell] at h1 h2 h3 h4
  rcases Nat.lt_trichotomy c1 c2 with hcc | hcc | hcc
  · exact absurd h2 (not_lt.mpr (gridAxis_separated hcw hs hcc margin))
  · rcases Nat.lt_trichotomy r1 r2 with hrr | hrr | hrr
    · exact absurd h4 (not_lt.mpr (gridAxis_separated hch hs hrr margin))
    · exact hne ⟨hrr, hcc⟩
    · exact absurd h3 (not_lt.mpr (gridAxis_separated hch hs hrr margin))
  · exact absurd h1 (not_lt.mpr (gridAxis_separated hcw hs hcc margin))

theorem gridCells_brightness (img : Grid) (rows cols margin spacing : Int) :
    ∀ c ∈ gridCells img rows cols margin spacing, c.brightness = 0 := by
  intro c hc
  unfold gridCells at hc
  rcases List.mem_flatMap.mp hc with ⟨row, _, hmem⟩
  rcases List.mem_map.mp hmem with ⟨col, _, rfl⟩
  rfl

end GridPartitionLemmas

section AnalyzeLemmas

theorem analyzeCells_spec (a : CellBrightnessAnalyzer) (method : String) :
    ∀ (cs cells' : List Cell) (recs : List CellRecord),
      analyzeCells a method cs = .ok (cells', recs) →
      cells'.length = cs.length ∧ recs.length = cs.length ∧
      ∀ i, i < cs.length →
        ∃ b, calculate_brightness a (cs.getD i cell0) method =
               .ok (b, cells'.getD i cell0) ∧
             recs.getD i record0 = (cells'.getD i cell0).to_dict := by
  intro cs
  induction cs with
  | nil =>
      intro cells' recs h
      simp only [analyzeCells, Except.ok.injEq, Prod.mk.injEq] at h
      obtain ⟨h1, h2⟩ := h
      subst h1; subst h2
      exact ⟨rfl, rfl, fun i hi => absurd hi (by simp)⟩
  | cons c t ih =>
      intro cells' recs h
      unfold analyzeCells at h
      cases hbc : calculate_brightness a c method with
      | error e => rw [hbc] at h; exact absurd h (by simp)
      | ok bc =>
          rw [hbc] at h
          cases hp : analyzeCells a method t with
          | error e => rw [hp] at h; exact absurd h (by simp)
          | ok p =>
              rw [hp] at h
              simp only [Except.ok.injEq, Prod.mk.injEq] at h
              obtain ⟨hcells, hrecs⟩ := h
              subst hcells; subst hrecs
              obtain ⟨hl1, hl2, hidx⟩ := ih p.1 p.2 (by rw [hp])
              refine ⟨by simp [hl1], by simp [hl2], ?_⟩
              intro i hi
              cases i with
              | zero =>
                  refine ⟨bc.1, ?_, ?_⟩
                  · simpa using hbc
                  · simp
              | succ j =>
                  simp only [List.getD_cons_succ]
                  exact hidx j (by simpa using hi)

end AnalyzeLemmas

/-! ## Claims -/

/-- C3: Automatic detection keeps exactly the contours whose area is at least
`min_area`, and each kept region's identifier is `cell_{i+1}` where `i` is the
contour's 0-based index over ALL contours found (pre-filter order), so kept
identifiers may be non-contiguous. -/
theorem C3_detect_filter_ids (cv : CV) (a : CellBrightnessAnalyzer)
    (min_area : Int) (tm : String) (g : Grid) (himg : a.image = some g) :
    ∃ cells,
      detect_cells_automatically cv a min_area tm =
        .ok ({ a with cells := cells }, cells) ∧
      cells = ((cv.findContours (thresholdImage cv tm g)).enum.filter
          (fun ic => decide ((min_area : ℚ) ≤ cv.contourArea ic.2))).map
        (fun ic => { x := (cv.boundingRect ic.2).1,
                     y := (cv.boundingRect ic.2).2.1,
                     width := (cv.boundingRect ic.2).2.2.1,
                     height := (cv.boundingRect ic.2).2.2.2,
                     brightness := 0,
                     cell_id := some ("cell_" ++ toString (ic.1 + 1)) }) := by
  refine ⟨contourCells cv (cv.findContours (thresholdImage cv tm g)) min_area,
    ?_, ?_⟩
  · unfold detect_cells_automatically
    rw [himg]
  · exact contourCells_eq cv _ min_area

/-- Witness for C3 at a concrete session and OpenCV instantiation. -/
theorem C3_witness :
    ∃ cells,
      detect_cells_automatically cv0 sampleAnalyzer 1 "otsu" =
        .ok ({ sampleAnalyzer with cells := cells }, cells) ∧
      cells = ((cv0.findContours (thresholdImage cv0 "otsu" sampleGrid)).enum.filter
          (fun ic => decide ((1 : ℚ) ≤ cv0.contourArea ic.2))).map
        (fun ic => { x := (cv0.boundingRect ic.2).1,
                     y := (cv0.boundingRect ic.2).2.1,
                     width := (cv0.boundingRect ic.2).2.2.1,
                     height := (cv0.boundingRect ic.2).2.2.2,
                     brightness := 0,
                     cell_id := some ("cell_" ++ toString (ic.1 + 1)) }) :=
  C3_detect_filter_ids cv0 sampleAnalyzer 1 "otsu" sampleGrid rfl

/-- C4: with a loaded grid, the Brightness Reducer fails with
`InvalidArgument` on any method token outside the four recognized ones, and on
a recognized token it stores the computed value into the cell's `brightness`
field and returns that same value. -/
theorem C4_method_dispatch (a : CellBrightnessAnalyzer) (cell : Cell)
    (method : String) (g : Grid) (himg : a.image = some g)
    (hs : (extractRegion g cell).flatten ≠ []) :
    (method ∉ (["mean", "median", "max", "percentile"] : List String) →
      calculate_brightness a cell method =
        .error (.invalidArgument ("Unknown method: " ++ method))) ∧
    (method ∈ (["mean", "median", "max", "percentile"] : List String) →
      ∃ b, calculate_brightness a cell method =
        .ok (b, { cell with brightness := b })) := by
  constructor
  · intro hnot
    simp only [List.mem_cons, List.mem_singleton, List.not_mem_nil] at hnot
    push_neg at hnot
    obtain ⟨h1, h2, h3, h4, -⟩ := hnot
    exact calculate_brightness_unknown himg h1 h2 h3 h4
  · intro hmem
    simp only [List.mem_cons, List.mem_singleton, List.not_mem_nil,
      or_false] at hmem
    exact calculate_brightness_ok_of_nonempty himg hmem hs

/-- Witness for C4 at a concrete session, cell and method. -/
theorem C4_witness :
    sampleAnalyzer.image = some sampleGrid ∧
    (extractRegion sampleGrid sampleCell).flatten ≠ [] ∧
    ((("median" : String) ∉ (["mean", "median", "max", "percentile"] : List String) →
      calculate_brightness sampleAnalyzer sampleCell "median" =
        .error (.invalidArgument ("Unknown method: " ++ "median"))) ∧
    (("median" : String) ∈ (["mean", "median", "max", "percentile"] : List String) →
      ∃ b, calculate_brightness sampleAnalyzer sampleCell "median" =
        .ok (b, { sampleCell with brightness := b }))) :=
  ⟨rfl, by with_unfolding_all decide,
   C4_method_dispatch sampleAnalyzer sampleCell "median" sampleGrid rfl
     (by with_unfolding_all decide)⟩

/-- C6: automatic detection fails with `InvalidState` when no grid is loaded;
with a loaded grid it never fails, and any threshold token other than
`"otsu"` and `"adaptive"` silently degrades to the fixed manual-cutoff
binarization (`manualThreshold`, cutoff 127 on the 0–255 scale). -/
theorem C6_detect_fallback (cv : CV) (a : CellBrightnessAnalyzer)
    (min_area : Int) (tm : String) :
    (a.image = none →
      detect_cells_automatically cv a min_area tm =
        .error (.invalidState "No image loaded. Call load_image() first.")) ∧
    (∀ g, a.image = some g →
      detect_cells_automatically cv a min_area tm =
        .ok ({ a with cells :=
                 contourCells cv (cv.findContours (thresholdImage cv tm g)) min_area },
             contourCells cv (cv.findContours (thresholdImage cv tm g)) min_area)) ∧
    (∀ g, a.image = some g → tm ≠ "otsu" → tm ≠ "adaptive" →
      detect_cells_automatically cv a min_area tm =
        .ok ({ a with cells :=
                 contourCells cv (cv.findContours (manualThreshold g)) min_area },
             contourCells cv (cv.findContours (manualThreshold g)) min_area)) := by
  refine ⟨?_, ?_, ?_⟩
  · intro hnone
    unfold detect_cells_automatically
    rw [hnone]
  · intro g himg
    unfold detect_cells_automatically
    rw [himg]
  · intro g himg h1 h2
    have hth : thresholdImage cv tm g = manualThreshold g := by
      unfold thresholdImage
      rw [if_neg h1, if_neg h2]
    simp only [detect_cells_automatically, himg, hth]

/-- Witness for C6: a misspelled threshold token on a loaded session degrades
to the manual cutoff and succeeds. -/
theorem C6_witness :
    sampleAnalyzer.image = some sampleGrid ∧
    ("fuzzy" : String) ≠ "otsu" ∧ ("fuzzy" : String) ≠ "adaptive" ∧
    detect_cells_automatically cv0 sampleAnalyzer 1 "fuzzy" =
      .ok ({ sampleAnalyzer with
               cells := contourCells cv0
                 (cv0.findContours (manualThreshold sampleGrid)) 1 },
           contourCells cv0 (cv0.findContours (manualThreshold sampleGrid)) 1) :=
  ⟨rfl, by decide, by decide,
   (C6_detect_fallback cv0 sampleAnalyzer 1 "fuzzy").2.2 sampleGrid rfl
     (by decide) (by decide)⟩

/-- Counterexample to C7 as stated: with a loaded 10×10 grid,
`add_cells_grid(rows=1, cols=1, margin=6)` computes a cell dimension of
`-2 ≤ 0` yet returns successfully with a degenerate negative-sized region
instead of failing with `InvalidRegion` or any other error. -/
theorem C7_counterexample :
    analyzer10.image = some grid10 ∧
    gridCellSize 10 1 6 0 ≤ 0 ∧
    add_cells_grid analyzer10 1 1 6 0 =
      .ok ({ analyzer10 with cells := [degCell] }, [degCell]) := by
  with_unfolding_all decide

/-- C7 (amended): grid partition fails with `InvalidState` when no grid is
loaded, fails with a division-by-zero error when `rows = 0` or `cols = 0`,
and otherwise performs no validation of `rows`, `cols` or the computed cell
dimension — it succeeds even when the computed dimension is ≤ 0, silently
producing degenerate regions. -/
theorem C7_amended_no_validation (a : CellBrightnessAnalyzer)
    (rows cols margin spacing : Int) :
    (a.image = none →
      add_cells_grid a rows cols margin spacing =
        .error (.invalidState "No image loaded. Call load_image() first.")) ∧
    (∀ g, a.image = some g → (cols = 0 ∨ rows = 0) →
      add_cells_grid a rows cols margin spacing = .error .zeroDivision) ∧
    (∀ g, a.image = some g → rows ≠ 0 → cols ≠ 0 →
      add_cells_grid a rows cols margin spacing =
        .ok ({ a with cells := a.cells ++ gridCells g rows cols margin spacing },
             gridCells g rows cols margin spacing)) := by
  refine ⟨?_, ?_, ?_⟩
  · intro hnone
    unfold add_cells_grid
    rw [hnone]
  · intro g himg hzero
    simp only [add_cells_grid, himg]
    rw [if_pos hzero]
  · intro g himg hr hc
    simp only [add_cells_grid, himg]
    rw [if_neg (not_or.mpr ⟨hc, hr⟩)]

/-- Witness for the amended C7: `rows = 0` on a loaded session raises the
division error. -/
theorem C7_amended_witness :
    analyzer10.image = some grid10 ∧ ((2 : Int) = 0 ∨ (0 : Int) = 0) ∧
    add_cells_grid analyzer10 0 2 0 0 = .error .zeroDivision :=
  ⟨rfl, Or.inr rfl,
   (C7_amended_no_validation analyzer10 0 2 0 0).2.1 grid10 rfl (Or.inr rfl)⟩

/-- C9: every region produced by automatic detection, grid partition or
manual entry carries the uncomputed-brightness sentinel (the dataclass
default `0.0`); no creation path computes a brightness value. -/
theorem C9_creation_brightness_sentinel :
    (∀ (cv : CV) (a : CellBrightnessAnalyzer) (min_area : Int) (tm : String)
       (a' : CellBrightnessAnalyzer) (cells : List Cell),
       detect_cells_automatically cv a min_area tm = .ok (a', cells) →
       ∀ c ∈ cells, c.brightness = uncomputedBrightness) ∧
    (∀ (a : CellBrightnessAnalyzer) (rows cols margin spacing : Int)
       (a' : CellBrightnessAnalyzer) (cells : List Cell),
       add_cells_grid a rows cols margin spacing = .ok (a', cells) →
       ∀ c ∈ cells, c.brightness = uncomputedBrightness) ∧
    (∀ (a : CellBrightnessAnalyzer) (x y w h : Int) (cid : Option String),
       (add_cell_manual a x y w h cid).2.brightness = uncomputedBrightness) := by
  refine ⟨?_, ?_, ?_⟩
  · intro cv a min_area tm a' cells h
    cases himg : a.image with
    | none =>
        simp only [detect_cells_automatically, himg] at h
        exact absurd h (by simp)
    | some img =>
        simp only [detect_cells_automatically, himg, Except.ok.injEq,
          Prod.mk.injEq] at h
        obtain ⟨_, hcells⟩ := h
        subst hcells
        exact contourCells_brightness cv _ min_area
  · intro a rows cols margin spacing a' cells h
    cases himg : a.image with
    | none =>
        simp only [add_cells_grid, himg] at h
        exact absurd h (by simp)
    | some img =>
        simp only [add_cells_grid, himg] at h
        by_cases hzero : cols = 0 ∨ rows = 0
        · rw [if_pos hzero] at h; exact absurd h (by simp)
        · rw [if_neg hzero] at h
          simp only [Except.ok.injEq, Prod.mk.injEq] at h
          obtain ⟨_, hcells⟩ := h
          subst hcells
          exact gridCells_brightness img rows cols margin spacing
  · intro a x y w h cid
    cases cid <;> rfl

/-- Witness for C9: the four cells created by a 2×2 grid partition on a
loaded session all carry the sentinel brightness. -/
theorem C9_witness :
    ∀ c ∈ gridCellsA, c.brightness = uncomputedBrightness :=
  C9_creation_brightness_sentinel.2.1 analyzer10 2 2 0 0
    { analyzer10 with cells := gridCellsA } gridCellsA
    (by with_unfolding_all decide)

/-- C5: `analyze_all_cells` fails with `InvalidState` on an empty cell list;
on success it produces exactly one record per cell, each record being the
post-reduction snapshot of its cell in sequence order, and the session's
result list is replaced by (not appended with) the fresh records. -/
theorem C5_analyze_all_contract (a : CellBrightnessAnalyzer) (method : String) :
    (a.cells = [] → analyze_all_cells a method =
      .error (.invalidState "No cells defined. Add cells first.")) ∧
    (∀ a' recs, analyze_all_cells a method = .ok (a', recs) →
      recs.length = a.cells.length ∧ a'.results = recs ∧
      ∀ i, i < a.cells.length →
        ∃ b c', calculate_brightness a (a.cells.getD i cell0) method =
                  .ok (b, c') ∧
                recs.getD i record0 = c'.to_dict) := by
  constructor
  · intro hempty
    unfold analyze_all_cells
    rw [if_pos (by simp [hempty])]
  · intro a' recs h
    unfold analyze_all_cells at h
    by_cases hempty : a.cells.isEmpty
    · rw [if_pos hempty] at h
      exact absurd h (by simp)
    · rw [if_neg hempty] at h
      cases hc : analyzeCells a method a.cells with
      | error e => rw [hc] at h; exact absurd h (by simp)
      | ok p =>
          rw [hc] at h
          simp only [Except.ok.injEq, Prod.mk.injEq] at h
          obtain ⟨ha', hrecs⟩ := h
          obtain ⟨hl1, hl2, hidx⟩ :=
            analyzeCells_spec a method a.cells p.1 p.2 (by rw [hc])
          refine ⟨?_, ?_, ?_⟩
          · rw [← hrecs]; exact hl2
          · rw [← ha']; exact hrecs
          · intro i hi
            obtain ⟨b, hcb, hrec⟩ := hidx i hi
            exact ⟨b, p.1.getD i cell0, hcb, by rw [← hrecs]; exact hrec⟩

/-- Witness for C5: analyzing a one-cell session with `mean` replaces the
stale result list with the single fresh record. -/
theorem C5_witness :
    analyze_all_cells awc "mean" =
      .ok ({ image := some sampleGrid, cells := [awcCell],
             results := [awcRec] }, [awcRec]) ∧
    ([awcRec].length = awc.cells.length ∧
     ({ image := some sampleGrid, cells := [awcCell],
        results := [awcRec] } : CellBrightnessAnalyzer).results = [awcRec] ∧
     ∀ i, i < awc.cells.length →
       ∃ b c', calculate_brightness awc (awc.cells.getD i cell0) "mean" =
                 .ok (b, c') ∧
               [awcRec].getD i record0 = c'.to_dict) :=
  ⟨by with_unfolding_all decide,
   (C5_analyze_all_contract awc "mean").2 _ _ (by with_unfolding_all decide)⟩

/-- C10: a successful `analyze_all_cells` run leaves the grid unchanged,
keeps the cell list's length and order, and preserves every cell's `x`, `y`,
`width`, `height` and `cell_id`; only `brightness` is written. -/
theorem C10_analyze_all_frame (a a' : CellBrightnessAnalyzer) (method : String)
    (recs : List CellRecord)
    (h : analyze_all_cells a method = .ok (a', recs)) :
    a'.image = a.image ∧
    a'.cells.length = a.cells.length ∧
    ∀ i, (a'.cells.getD i cell0).x = (a.cells.getD i cell0).x ∧
         (a'.cells.getD i cell0).y = (a.cells.getD i cell0).y ∧
         (a'.cells.getD i cell0).width = (a.cells.getD i cell0).width ∧
         (a'.cells.getD i cell0).height = (a.cells.getD i cell0).height ∧
         (a'.cells.getD i cell0).cell_id = (a.cells.getD i cell0).cell_id := by
  unfold analyze_all_cells at h
  by_cases hempty : a.cells.isEmpty
  · rw [if_pos hempty] at h
    exact absurd h (by simp)
  · rw [if_neg hempty] at h
    cases hc : analyzeCells a method a.cells with
    | error e => rw [hc] at h; exact absurd h (by simp)
    | ok p =>
        rw [hc] at h
        simp only [Except.ok.injEq, Prod.mk.injEq] at h
        obtain ⟨ha', hrecs⟩ := h
        obtain ⟨hl1, hl2, hidx⟩ :=
          analyzeCells_spec a method a.cells p.1 p.2 (by rw [hc])
        subst ha'
        refine ⟨rfl, by simpa using hl1, ?_⟩
        intro i
        by_cases hi : i < a.cells.length
        · obtain ⟨b, hcb, -⟩ := hidx i hi
          have hshape := calculate_brightness_ok_shape hcb
          refine ⟨?_, ?_, ?_, ?_, ?_⟩ <;> rw [hshape]
        · have h1 : a.cells.length ≤ i := le_of_not_lt hi
          have h2 : p.1.length ≤ i := by omega
          have e1 : p.1.getD i cell0 = cell0 := List.getD_eq_default _ _ h2
          have e2 : a.cells.getD i cell0 = cell0 := List.getD_eq_default _ _ h1
          refine ⟨?_, ?_, ?_, ?_, ?_⟩ <;> rw [e1, e2]

/-- Witness for C10 on a concrete one-cell session. -/
theorem C10_witness :
    ({ image := some sampleGrid, cells := [awcCell],
       results := [awcRec] } : CellBrightnessAnalyzer).image = awc.image ∧
    ({ image := some sampleGrid, cells := [awcCell],
       results := [awcRec] } : CellBrightnessAnalyzer).cells.length =
      awc.cells.length ∧
    ∀ i, (({ image := some sampleGrid, cells := [awcCell],
             results := [awcRec] } : CellBrightnessAnalyzer).cells.getD i cell0).x =
           (awc.cells.getD i cell0).x ∧
         (({ image := some sampleGrid, cells := [awcCell],
             results := [awcRec] } : CellBrightnessAnalyzer).cells.getD i cell0).y =
           (awc.cells.getD i cell0).y ∧
         (({ image := some sampleGrid, cells := [awcCell],
             results := [awcRec] } : CellBrightnessAnalyzer).cells.getD i cell0).width =
           (awc.cells.getD i cell0).width ∧
         (({ image := some sampleGrid, cells := [awcCell],
             results := [awcRec] } : CellBrightnessAnalyzer).cells.getD i cell0).height =
           (awc.cells.getD i cell0).height ∧
         (({ image := some sampleGrid, cells := [awcCell],
             results := [awcRec] } : CellBrightnessAnalyzer).cells.getD i cell0).cell_id =
           (awc.cells.getD i cell0).cell_id :=
  C10_analyze_all_frame awc
    { image := some sampleGrid, cells := [awcCell], results := [awcRec] }
    "mean" [awcRec] (by with_unfolding_all decide)

/-- C8: a region that starts inside the grid but runs past its edges is
silently truncated — the extraction equals the intersection of the region's
rectangle with the grid extent — and the Brightness Reducer succeeds on it
with every recognized method instead of raising an out-of-bounds error. -/
theorem C8_out_of_bounds_truncation (a : CellBrightnessAnalyzer) (g : Grid)
    (cell : Cell) (R C : Nat) (hwf : GridWF g R C) (himg : a.image = some g)
    (hx : 0 ≤ cell.x) (hy : 0 ≤ cell.y)
    (hw : 0 < cell.width) (hh : 0 < cell.height)
    (hxC : cell.x < (C : Int)) (hyR : cell.y < (R : Int))
    (_hout : (C : Int) < cell.x + cell.width ∨
             (R : Int) < cell.y + cell.height) :
    extractRegion g cell = intersectRegion g cell ∧
    ∀ method, (method = "mean" ∨ method = "median" ∨ method = "max" ∨
               method = "percentile") →
      ∃ b, calculate_brightness a cell method =
        .ok (b, { cell with brightness := b }) := by
  have hs := extractRegion_flatten_ne_nil_start_inside hwf hx hy hw hh hxC hyR
  exact ⟨extractRegion_eq_intersectRegion hx hy (le_of_lt hw) (le_of_lt hh),
    fun method hm => calculate_brightness_ok_of_nonempty himg hm hs⟩

/-- Witness for C8: a 5×3 region at `(2, 1)` of the 2×4 `sampleGrid` runs
past both edges, is truncated, and reduces successfully. -/
theorem C8_witness :
    GridWF sampleGrid 2 4 ∧
    sampleAnalyzer.image = some sampleGrid ∧
    ((4 : Int) < oobCell.x + oobCell.width ∨
     (2 : Int) < oobCell.y + oobCell.height) ∧
    (extractRegion sampleGrid oobCell = intersectRegion sampleGrid oobCell ∧
     ∀ method, (method = "mean" ∨ method = "median" ∨ method = "max" ∨
                method = "percentile") →
       ∃ b, calculate_brightness sampleAnalyzer oobCell method =
         .ok (b, { oobCell with brightness := b })) :=
  ⟨by decide, rfl, by decide,
   C8_out_of_bounds_truncation sampleAnalyzer sampleGrid oobCell 2 4
     (by decide) rfl (by decide) (by decide) (by decide) (by decide)
     (by decide) (by decide) (by decide)⟩

/-- Counterexample to C1 as stated: on the loaded grid `[[0, 10, 10]]` the
full 3×1 region is inside the grid, non-degenerate and has non-negative
samples, yet `mean = 20/3` is strictly below `median = 10`, refuting
`mean ≥ median`. -/
theorem C1_counterexample :
    GridWF skewGrid 1 3 ∧
    (∀ row ∈ skewGrid, ∀ v ∈ row, 0 ≤ v) ∧
    skewAnalyzer.image = some skewGrid ∧
    0 ≤ skewCell.x ∧ 0 ≤ skewCell.y ∧
    0 < skewCell.width ∧ 0 < skewCell.height ∧
    skewCell.x + skewCell.width ≤ (3 : Int) ∧
    skewCell.y + skewCell.height ≤ (1 : Int) ∧
    calculate_brightness skewAnalyzer skewCell "mean" =
      .ok (20 / 3, { skewCell with brightness := 20 / 3 }) ∧
    calculate_brightness skewAnalyzer skewCell "median" =
      .ok (10, { skewCell with brightness := 10 }) ∧
    ¬ ((20 / 3 : ℚ) ≥ (10 : ℚ)) := by
  with_unfolding_all decide

/-- C1 (amended): for a valid non-degenerate in-grid region with non-negative
samples, `max` dominates both `mean` and `median`; the `mean ≥ median` leg of
the claimed chain does not hold in general. -/
theorem C1_amended_max_dominates (a : CellBrightnessAnalyzer) (g : Grid)
    (cell : Cell) (R C : Nat) (hwf : GridWF g R C) (himg : a.image = some g)
    (hx : 0 ≤ cell.x) (hy : 0 ≤ cell.y)
    (hw : 0 < cell.width) (hh : 0 < cell.height)
    (hxw : cell.x + cell.width ≤ (C : Int))
    (hyh : cell.y + cell.height ≤ (R : Int))
    (_hnn : ∀ row ∈ g, ∀ v ∈ row, 0 ≤ v) :
    ∃ bmax bmean bmed,
      calculate_brightness a cell "max" =
        .ok (bmax, { cell with brightness := bmax }) ∧
      calculate_brightness a cell "mean" =
        .ok (bmean, { cell with brightness := bmean }) ∧
      calculate_brightness a cell "median" =
        .ok (bmed, { cell with brightness := bmed }) ∧
      bmean ≤ bmax ∧ bmed ≤ bmax := by
  have hne : (extractRegion g cell).flatten ≠ [] :=
    extractRegion_flatten_ne_nil hwf hx hy hw hh hxw hyh
  set samples := (extractRegion g cell).flatten with hsamp
  obtain ⟨v, t, hvt⟩ : ∃ v t, samples = v :: t := by
    cases hs : samples with
    | nil => exact absurd hs hne
    | cons v t => exact ⟨v, t, rfl⟩
  have hisEmpty : samples.isEmpty = false := by rw [hvt]; rfl
  have hmaxeq : npMax samples = some (t.foldl max v) := by rw [hvt]; rfl
  have hub := npMax_is_ub hmaxeq
  have hmeaneq := npMean_some hisEmpty
  obtain ⟨med, hmedeq⟩ := npMedian_some hisEmpty
  have e1 : calculate_brightness a cell "max" =
      .ok (t.foldl max v, { cell with brightness := t.foldl max v }) := by
    rw [calculate_brightness_some himg]
    apply calcBrightnessImg_of_dispatch
    rw [← hsamp, dispatchMethod_max, hmaxeq]
    rfl
  have e2 : calculate_brightness a cell "mean" =
      .ok (samples.sum / (samples.length : ℚ),
           { cell with brightness := samples.sum / (samples.length : ℚ) }) := by
    rw [calculate_brightness_some himg]
    apply calcBrightnessImg_of_dispatch
    rw [← hsamp, dispatchMethod_mean, hmeaneq]
    rfl
  have e3 : calculate_brightness a cell "median" =
      .ok (med, { cell with brightness := med }) := by
    rw [calculate_brightness_some himg]
    apply calcBrightnessImg_of_dispatch
    rw [← hsamp, dispatchMethod_median, hmedeq]
    rfl
  exact ⟨t.foldl max v, samples.sum / (samples.length : ℚ), med, e1, e2, e3,
    npMean_le_of_ub hne hub hmeaneq, npMedian_le_of_ub hne hub hmedeq⟩

/-- Witness for the amended C1 at a concrete grid and region. -/
theorem C1_amended_witness :
    GridWF sampleGrid 2 4 ∧
    (∀ row ∈ sampleGrid, ∀ v ∈ row, 0 ≤ v) ∧
    (∃ bmax bmean bmed,
      calculate_brightness sampleAnalyzer sampleCell "max" =
        .ok (bmax, { sampleCell with brightness := bmax }) ∧
      calculate_brightness sampleAnalyzer sampleCell "mean" =
        .ok (bmean, { sampleCell with brightness := bmean }) ∧
      calculate_brightness sampleAnalyzer sampleCell "median" =
        .ok (bmed, { sampleCell with brightness := bmed }) ∧
      bmean ≤ bmax ∧ bmed ≤ bmax) :=
  ⟨by decide, by decide,
   C1_amended_max_dominates sampleAnalyzer sampleGrid sampleCell 2 4
     (by decide) rfl (by decide) (by decide) (by decide) (by decide)
     (by decide) (by decide) (by decide)⟩

/-- C2: with a loaded `R × C` grid and parameters that fit, grid partition
produces exactly `rows*cols` regions of equal floor-divided width and height,
laid out row-major at offsets `margin + index*(cell_size+spacing)` with
1-based identifiers `cell_r{row+1}_c{col+1}`, and no two regions overlap. -/
theorem C2_grid_partition (a : CellBrightnessAnalyzer) (g : Grid) (R C : Nat)
    (rows cols margin spacing : Int)
    (himg : a.image = some g) (hwf : GridWF g R C)
    (hrows : 1 ≤ rows) (hcols : 1 ≤ cols)
    (hm : 0 ≤ margin) (hsp : 0 ≤ spacing)
    (hfitW : 2 * margin + (cols - 1) * spacing + cols ≤ (C : Int))
    (hfitH : 2 * margin + (rows - 1) * spacing + rows ≤ (R : Int)) :
    ∃ cells,
      add_cells_grid a rows cols margin spacing =
        .ok ({ a with cells := a.cells ++ cells }, cells) ∧
      cells.length = rows.toNat * cols.toNat ∧
      (∀ cell ∈ cells,
        cell.width = gridCellSize (C : Int) cols margin spacing ∧
        cell.height = gridCellSize (R : Int) rows margin spacing) ∧
      (∀ r c, r < rows.toNat → c < cols.toNat →
        cells.getD (r * cols.toNat + c) cell0 =
          { x := margin +
                 (c : Int) * (gridCellSize (C : Int) cols margin spacing + spacing),
            y := margin +
                 (r : Int) * (gridCellSize (R : Int) rows margin spacing + spacing),
            width := gridCellSize (C : Int) cols margin spacing,
            height := gridCellSize (R : Int) rows margin spacing,
            brightness := 0,
            cell_id := some ("cell_r" ++ toString (r + 1) ++
                             "_c" ++ toString (c + 1)) }) ∧
      (∀ i j, i < cells.length → j < cells.length → i ≠ j →
        ¬ cellsOverlap (cells.getD i cell0) (cells.getD j cell0)) := by
  have hspW : 0 ≤ (cols - 1) * spacing := mul_nonneg (by linarith) hsp
  have hspH : 0 ≤ (rows - 1) * spacing := mul_nonneg (by linarith) hsp
  have hR : 0 < R := by
    have h1 : (1 : Int) ≤ (R : Int) := by linarith
    omega
  have hC : 0 < C := by
    have h1 : (1 : Int) ≤ (C : Int) := by linarith
    omega
  have hshape := imageShape_eq hwf hR
  set cw := gridCellSize (C : Int) cols margin spacing with hcw
  set ch := gridCellSize (R : Int) rows margin spacing with hch
  have hcwpos : 0 < cw := gridCellSize_pos (by linarith) hfitW
  have hchpos : 0 < ch := gridCellSize_pos (by linarith) hfitH
  have hcells : gridCells g rows cols margin spacing =
      (List.range rows.toNat).flatMap (fun row =>
        (List.range cols.toNat).map
          (fun col => gridCell cw ch margin spacing row col)) := by
    unfold gridCells
    rw [hshape]
  have hok : add_cells_grid a rows cols margin spacing =
      .ok ({ a with cells := a.cells ++ gridCells g rows cols margin spacing },
           gridCells g rows cols margin spacing) := by
    simp only [add_cells_grid, himg]
    rw [if_neg (not_or.mpr ⟨by omega, by omega⟩)]
  have hlenf : ∀ i, ((List.range cols.toNat).map
      (fun col => gridCell cw ch margin spacing i col)).length = cols.toNat :=
    fun i => by simp
  have hlen : (gridCells g rows cols margin spacing).length =
      rows.toNat * cols.toNat := by
    rw [hcells]
    exact length_flatMap_const _ _ _ hlenf
  have hcolpos : 0 < cols.toNat := by omega
  have hchar : ∀ k, k < rows.toNat * cols.toNat →
      (gridCells g rows cols margin spacing).getD k cell0 =
        gridCell cw ch margin spacing (k / cols.toNat) (k % cols.toNat) := by
    intro k hk
    have hdecomp : (k / cols.toNat) * cols.toNat + k % cols.toNat = k := by
      have h1 := Nat.div_add_mod k cols.toNat
      rw [Nat.mul_comm] at h1
      exact h1
    have hrdiv : k / cols.toNat < rows.toNat :=
      (Nat.div_lt_iff_lt_mul hcolpos).mpr hk
    have hcmod : k % cols.toNat < cols.toNat := Nat.mod_lt _ hcolpos
    rw [hcells]
    conv_lhs => rw [← hdecomp]
    rw [getD_flatMap_range _ hlenf cell0 _ _ hrdiv hcmod]
    rw [List.getD_eq_getElem _ _ (by simp [hcmod])]
    simp only [List.getElem_map, List.getElem_range]
  refine ⟨gridCells g rows cols margin spacing, hok, hlen, ?_, ?_, ?_⟩
  · intro cell hcell
    rw [hcells] at hcell
    rcases List.mem_flatMap.mp hcell with ⟨row, _, hmem⟩
    rcases List.mem_map.mp hmem with ⟨col, _, rfl⟩
    exact ⟨rfl, rfl⟩
  · intro r c hr hc
    have hk : r * cols.toNat + c < rows.toNat * cols.toNat := by
      have h1 : (r + 1) * cols.toNat ≤ rows.toNat * cols.toNat :=
        Nat.mul_le_mul_right _ hr
      have h2 : r * cols.toNat + c < (r + 1) * cols.toNat := by
        rw [Nat.succ_mul]; omega
      omega
    rw [hchar _ hk]
    have hdiv : (r * cols.toNat + c) / cols.toNat = r := by
      rw [Nat.mul_comm r, Nat.mul_add_div hcolpos, Nat.div_eq_of_lt hc,
        Nat.add_zero]
    have hmod : (r * cols.toNat + c) % cols.toNat = c := by
      rw [Nat.mul_comm r, Nat.mul_add_mod, Nat.mod_eq_of_lt hc]
    rw [hdiv, hmod]
    rfl
  · intro i j hi hj hne
    rw [hlen] at hi hj
    rw [hchar i hi, hchar j hj]
    apply gridCell_not_overlap hcwpos hchpos hsp
    intro hrc
    obtain ⟨hreq, hceq⟩ := hrc
    apply hne
    have hi' := Nat.div_add_mod i cols.toNat
    have hj' := Nat.div_add_mod j cols.toNat
    rw [hreq, hceq] at hi'
    omega

/-- Witness for C2: a 2×3 partition of the 10×10 grid with margin 1 and
spacing 1. -/
theorem C2_witness :
    analyzer10.image = some grid10 ∧ GridWF grid10 10 10 ∧
    (∃ cells,
      add_cells_grid analyzer10 2 3 1 1 =
        .ok ({ analyzer10 with cells := analyzer10.cells ++ cells }, cells) ∧
      cells.length = (2 : Int).toNat * (3 : Int).toNat ∧
      (∀ cell ∈ cells,
        cell.width = gridCellSize ((10 : Nat) : Int) 3 1 1 ∧
        cell.height = gridCellSize ((10 : Nat) : Int) 2 1 1) ∧
      (∀ r c, r < (2 : Int).toNat → c < (3 : Int).toNat →
        cells.getD (r * (3 : Int).toNat + c) cell0 =
          { x := 1 + (c : Int) * (gridCellSize ((10 : Nat) : Int) 3 1 1 + 1),
            y := 1 + (r : Int) * (gridCellSize ((10 : Nat) : Int) 2 1 1 + 1),
            width := gridCellSize ((10 : Nat) : Int) 3 1 1,
            height := gridCellSize ((10 : Nat) : Int) 2 1 1,
            brightness := 0,
            cell_id := some ("cell_r" ++ toString (r + 1) ++
                             "_c" ++ toString (c + 1)) }) ∧
      (∀ i j, i < cells.length → j < cells.length → i ≠ j →
        ¬ cellsOverlap (cells.getD i cell0) (cells.getD j cell0))) :=
  ⟨rfl, by decide,
   C2_grid_partition analyzer10 grid10 10 10 2 3 1 1 rfl (by decide)
     (by decide) (by decide) (by decide) (by decide) (by decide) (by decide)⟩

end CellBrightness
